import Mathlib

/-
  Verification of the session-orchestration core of the AI receptionist
  (src/bot.py, src/db.py, src/server.py), shallowly embedded in Lean 4.

  Conventions:
  - Python floats for wall-clock timestamps are modelled as rationals;
    Python `int(x)` (truncation toward zero) is `pyInt`.
  - Python string truthiness (`if s:`) is the test `s ≠ ""`.
  - Fallible Python code (psycopg2 calls that may raise) is modelled with
    `Except String`: `Except.error m` models an uncaught Python exception.
  - Event-handler wiring (`@transport.event_handler`, `@stt.event_handler`,
    `llm.register_function`) is modelled as a step function on a session
    state, dispatching on the events the framework can deliver.
-/

namespace Receptionist

/-- Python `int(x)` on a float: truncation toward zero. -/
def pyInt (q : ℚ) : ℤ := if 0 ≤ q then ⌊q⌋ else ⌈q⌉

/-- Code points Python `str.strip()` removes (Python `str.isspace` set:
ASCII whitespace, the C1 separators, and the Unicode space characters). -/
def isPyWhitespace (c : Char) : Bool :=
  c.toNat ∈ [9, 10, 11, 12, 13, 28, 29, 30, 31, 32, 133, 160, 5760,
    8192, 8193, 8194, 8195, 8196, 8197, 8198, 8199, 8200, 8201, 8202,
    8232, 8233, 8239, 8287, 12288]

/-- Python `str.strip()`: drop leading and trailing whitespace. -/
def pyStrip (s : String) : String :=
  ⟨((s.data.dropWhile isPyWhitespace).reverse.dropWhile isPyWhitespace).reverse⟩

/-- The system instruction from src/bot.py (`SYSTEM_PROMPT`), verbatim. -/
def SYSTEM_PROMPT : String :=
  "You are a friendly, natural-sounding receptionist for Acme Corp.\n\nWhen someone calls:\n1. Greet them warmly: \"Hello, thank you for calling Acme Corp. How can I help you today?\"\n2. Listen carefully to their request.\n3. If they want sales: Call transfer_to_sales, then say you're connecting them.\n4. If they want support: Call transfer_to_support, ask them to briefly describe their issue.\n5. If they ask about hours: Call get_business_hours and share the info conversationally.\n6. If they ask about location: Call get_location and share the address naturally.\n7. If unclear: Say \"I'm sorry, I didn't quite catch that. Could you say that again?\"\n\nIMPORTANT CONVERSATION RULES:\n- After helping with any request, always ask: \"Is there anything else I can help you with?\"\n- If they say \"no\", \"that's all\", \"thanks\", \"goodbye\", etc., respond with:\n  \"Thank you for calling Acme Corp. Have a wonderful day! Goodbye.\"\n- Remember what was discussed earlier in the call. If they ask a follow-up like\n  \"What about weekends?\" after asking about hours, understand the context.\n- Keep responses brief and conversational. Sound warm, not robotic.\n- Your output will be converted to audio, so avoid special characters or formatting.\n- If you can't understand what someone said, politely ask them to repeat."

/-! ## src/db.py -/

/-- One row of the `receptionist_call_logs` table, as inserted by `log_call`. -/
structure Row where
  caller_number : String
  transcript : String
  detected_intent : String
  duration : ℤ
deriving DecidableEq, Repr

/-- Outcome of `psycopg2.connect(postgres_url)`: it either returns a
connection or raises. -/
inductive ConnAttempt
  | success
  | failure (msg : String)
deriving DecidableEq, Repr

/-- Outcome of the cursor/execute/commit phase inside `log_call`'s try block. -/
inductive QueryAttempt
  | success
  | failure (msg : String)
deriving DecidableEq, Repr

/-- The environment `db.py` runs against: the `POSTGRES_URL` variable
(`none` = unset) and the behaviour of the database on this call. -/
structure DbEnv where
  postgres_url : Option String
  connect : ConnAttempt
  query : QueryAttempt
deriving DecidableEq, Repr

/-- Python truthiness of `os.getenv("POSTGRES_URL")`: unset or empty is falsy. -/
def urlTruthy : Option String → Bool
  | none => false
  | some s => !(s == "")

/-- `db.get_connection()`: returns `None` (modelled `Option.none`) when the URL
is not truthy; otherwise calls `psycopg2.connect`, which may raise
(modelled `Except.error`). -/
def get_connection (e : DbEnv) : Except String (Option Unit) :=
  if urlTruthy e.postgres_url = false then Except.ok none
  else
    match e.connect with
    | ConnAttempt.success => Except.ok (some ())
    | ConnAttempt.failure m => Except.error m

/-- Observable outcome of one `log_call` invocation. -/
inductive LogOutcome
  | skipped
  | logged
  | swallowed (msg : String)
deriving DecidableEq, Repr

/-- `db.log_call`: `conn = get_connection()` runs before the try block, so a
connect-time exception propagates; without a connection the call is skipped;
inside the try block an INSERT failure is caught and swallowed. The table
contents are threaded through as `rows`. -/
def log_call (e : DbEnv) (rows : List Row)
    (caller_number transcript detected_intent : String) (duration : ℤ) :
    Except String (List Row × LogOutcome) :=
  match get_connection e with
  | Except.error m => Except.error m
  | Except.ok none => Except.ok (rows, LogOutcome.skipped)
  | Except.ok (some _) =>
      match e.query with
      | QueryAttempt.success =>
          Except.ok (rows ++ [⟨caller_number, transcript, detected_intent, duration⟩],
            LogOutcome.logged)
      | QueryAttempt.failure m => Except.ok (rows, LogOutcome.swallowed m)

/-! ## src/bot.py: CallTracker -/

/-- `CallTracker` (src/bot.py lines 97-126). `start_time` is the wall-clock
time captured in `__init__`. -/
structure CallTracker where
  caller_number : String
  transcript_parts : List String
  detected_intent : String
  start_time : ℚ
  stt_error_count : ℕ
deriving DecidableEq, Repr

/-- `CallTracker.__init__(caller_number)` at wall-clock time `now`. -/
def CallTracker.init (caller_number : String) (now : ℚ) : CallTracker :=
  { caller_number := caller_number
    transcript_parts := []
    detected_intent := "unknown"
    start_time := now
    stt_error_count := 0 }

/-- `duration` property: `int(time.time() - self.start_time)`. -/
def CallTracker.duration (t : CallTracker) (now : ℚ) : ℤ :=
  pyInt (now - t.start_time)

/-- `transcript` property: `"\n".join(self.transcript_parts)`. -/
def CallTracker.transcript (t : CallTracker) : String :=
  String.intercalate "\n" t.transcript_parts

/-- `add_user_message`: appends `f"Caller: {text}"`. -/
def CallTracker.add_user_message (t : CallTracker) (text : String) : CallTracker :=
  { t with transcript_parts := t.transcript_parts ++ ["Caller: " ++ text] }

/-- `add_assistant_message`: appends `f"Receptionist: {text}"`. (Defined in
src/bot.py but never invoked by any wiring in the repository.) -/
def CallTracker.add_assistant_message (t : CallTracker) (text : String) : CallTracker :=
  { t with transcript_parts := t.transcript_parts ++ ["Receptionist: " ++ text] }

/-- `set_intent`: overwrites `detected_intent` (last write wins, no history). -/
def CallTracker.set_intent (t : CallTracker) (intent : String) : CallTracker :=
  { t with detected_intent := intent }

/-- `save`: `log_call(self.caller_number, self.transcript, self.detected_intent,
self.duration)`, evaluated at wall-clock time `now` against table state `rows`. -/
def CallTracker.save (t : CallTracker) (e : DbEnv) (rows : List Row) (now : ℚ) :
    Except String (List Row × LogOutcome) :=
  log_call e rows t.caller_number t.transcript t.detected_intent (t.duration now)

/-! ## src/bot.py: event wiring of `run_bot`

`run_bot` registers these handlers and nothing else that touches the
tracker, the context list or the database:
  - `on_client_connected` (transport): appends a greeting system message to
    `context_messages` and queues an `LLMRunFrame`;
  - `on_client_disconnected` (transport): calls `call_tracker.save()` then
    `task.cancel()` — with no guard against firing twice;
  - `on_transcript` (stt): appends `"Caller: " + text.strip()` when
    `frame.text` is truthy and its strip is truthy;
  - the four `llm.register_function` tool handlers, each of which calls
    `call_tracker.set_intent(...)` and returns a fixed result string.
Assistant replies flow through tts/transport with no registered handler, so
they never reach the tracker (`add_assistant_message` has no call site). -/

/-- A message of the conversation context (`context_messages` entries). -/
structure Message where
  role : String
  content : String
deriving DecidableEq, Repr

/-- The four tool names registered with `llm.register_function`. -/
inductive ToolName
  | get_business_hours
  | get_location
  | transfer_to_sales
  | transfer_to_support
deriving DecidableEq, Repr

/-- The intent label each registered handler passes to `set_intent`. -/
def ToolName.intent : ToolName → String
  | ToolName.get_business_hours => "hours_inquiry"
  | ToolName.get_location => "location_inquiry"
  | ToolName.transfer_to_sales => "sales_transfer"
  | ToolName.transfer_to_support => "support_transfer"

/-- Events the framework can deliver to the handlers registered in `run_bot`.
`sttTranscript none` models a frame without a `text` attribute;
`clientDisconnected now` carries the wall-clock time at which it fires.
`assistantReply` is an assistant utterance spoken to the caller (an event of
the tts path, for which `run_bot` registers no handler). -/
inductive BotEvent
  | clientConnected
  | clientDisconnected (now : ℚ)
  | sttTranscript (text : Option String)
  | toolCall (name : ToolName)
  | assistantReply (text : String)
deriving DecidableEq, Repr

/-- The per-call mutable state the handlers of `run_bot` touch: the tracker,
the context message list, the database table (`rows`), whether `task.cancel()`
has run, and exceptions that escaped a handler (`uncaught`). -/
structure BotState where
  tracker : CallTracker
  context_messages : List Message
  rows : List Row
  cancelled : Bool
  uncaught : List String
deriving DecidableEq, Repr

/-- State at the top of `run_bot`: a fresh `CallTracker(caller_number)` and
`context_messages = [{"role": "system", "content": SYSTEM_PROMPT}]`. -/
def initState (caller_number : String) (now : ℚ) (rows : List Row) : BotState :=
  { tracker := CallTracker.init caller_number now
    context_messages := [⟨"system", SYSTEM_PROMPT⟩]
    rows := rows
    cancelled := false
    uncaught := [] }

/-- One handler dispatch, following the handler bodies in src/bot.py. On
disconnect, `save()` runs before `task.cancel()`; if `save()` raises, the
exception escapes the handler and `cancel()` is not reached. -/
def stepEvent (e : DbEnv) (st : BotState) : BotEvent → BotState
  | BotEvent.clientConnected =>
      { st with context_messages := st.context_messages ++
          [⟨"system", "A caller just connected. Greet them warmly."⟩] }
  | BotEvent.clientDisconnected now =>
      match st.tracker.save e st.rows now with
      | Except.ok (rows1, _) => { st with rows := rows1, cancelled := true }
      | Except.error m => { st with uncaught := st.uncaught ++ [m] }
  | BotEvent.sttTranscript t =>
      match t with
      | none => st
      | some s =>
          if s = "" then st
          else
            let text := pyStrip s
            if text = "" then st
            else { st with tracker := st.tracker.add_user_message text }
  | BotEvent.toolCall name =>
      { st with tracker := st.tracker.set_intent name.intent }
  | BotEvent.assistantReply _ => st

/-- Dispatch a sequence of events in order. -/
def runEvents (e : DbEnv) (st : BotState) (evs : List BotEvent) : BotState :=
  evs.foldl (stepEvent e) st

/-- A database environment in which everything succeeds. -/
def goodEnv : DbEnv :=
  { postgres_url := some "postgresql://db", connect := ConnAttempt.success,
    query := QueryAttempt.success }

/-- Whether an event is a delivery of the `on_client_disconnected` signal. -/
def isDisconnect : BotEvent → Bool
  | BotEvent.clientDisconnected _ => true
  | _ => false

/-- Number of `clientDisconnected` events in a sequence. -/
def countDisconnects (evs : List BotEvent) : ℕ :=
  evs.countP isDisconnect

/-- The transcript line an event contributes, if any: only a truthy,
truthy-after-strip stt transcript adds a line. -/
def userLine : BotEvent → Option String
  | BotEvent.sttTranscript (some s) =>
      if pyStrip s = "" then none else some ("Caller: " ++ pyStrip s)
  | _ => none

/-- The intent label left by the last tool-handler invocation in `evs`, if any
handler ran. -/
def lastSetIntent : List BotEvent → Option String
  | [] => none
  | ev :: evs =>
      match lastSetIntent evs with
      | some i => some i
      | none =>
          match ev with
          | BotEvent.toolCall n => some n.intent
          | _ => none

/-! ## Conversation context operations (src/bot.py) -/

/-- The context list at the top of `run_bot`:
`context_messages = [{"role": "system", "content": SYSTEM_PROMPT}]`. -/
def initialContext : List Message := [⟨"system", SYSTEM_PROMPT⟩]

/-- The ways `context_messages` is ever mutated: the `on_client_connected`
greeting append (src/bot.py lines 214-223), and the aggregators' appends of
finalized user utterances, assistant output and tool results (all
`list.append`-shaped). Nothing removes or reorders entries. -/
inductive ContextOp
  | connectGreeting
  | appendUser (content : String)
  | appendAssistant (content : String)
  | appendTool (content : String)
deriving DecidableEq, Repr

/-- Apply one context mutation. -/
def applyOp (ctx : List Message) : ContextOp → List Message
  | ContextOp.connectGreeting =>
      ctx ++ [⟨"system", "A caller just connected. Greet them warmly."⟩]
  | ContextOp.appendUser c => ctx ++ [⟨"user", c⟩]
  | ContextOp.appendAssistant c => ctx ++ [⟨"assistant", c⟩]
  | ContextOp.appendTool c => ctx ++ [⟨"tool", c⟩]

/-- Apply a sequence of context mutations in order. -/
def applyOps (ctx : List Message) (ops : List ContextOp) : List Message :=
  ops.foldl applyOp ctx

/-! ## Claims C7 and C8: Turn Coordinator (modelled from the spec)

The repository configures `PipelineTask(..., allow_interruptions=True)`
(src/bot.py lines 203-212) and registers tool handlers, but the coordinator
that performs interruption and tool-result collection lives in the pipecat
framework, outside this repository's source. The definitions below are
modelled from the spec's §4.2-§4.3. -/

/-- Modelled from the spec: the Turn Coordinator's states (§4.2). The
coordinator code itself is in the pipecat framework, not in src/. -/
inductive CoordState
  | idle
  | generating (utterance : String)
  | awaitingTool
  | speaking
deriving DecidableEq, Repr

/-- The states in which a new finalized user utterance is a barge-in. -/
def CoordState.interruptible : CoordState → Bool
  | CoordState.idle => false
  | _ => true

/-- Modelled from the spec: the coordinator plus the synthesized-audio path:
frames the synthesizer has produced but the transport has not yet consumed
(`buffered`), and frames already delivered to the transport (`delivered`). -/
structure Coordinator where
  state : CoordState
  buffered : List String
  delivered : List String
deriving DecidableEq, Repr

/-- Modelled from the spec: events driving one coordinator (§4.2). -/
inductive CoordEvent
  | userUtterance (u : String)
  | synth (frame : String)
  | deliver
  | replyComplete
  | toolsRequested
  | playbackComplete
deriving DecidableEq, Repr

/-- Modelled from the spec: one coordinator transition. A finalized user
utterance cancels any in-flight generation/playback — the undelivered audio
buffer is discarded — and moves directly to `Generating` with that utterance.
`synth` buffers a frame of the reply being spoken; `deliver` hands the next
buffered frame to the transport. -/
def coordStep (c : Coordinator) : CoordEvent → Coordinator
  | CoordEvent.userUtterance u =>
      { state := CoordState.generating u, buffered := [], delivered := c.delivered }
  | CoordEvent.synth f =>
      match c.state with
      | CoordState.speaking => { c with buffered := c.buffered ++ [f] }
      | _ => c
  | CoordEvent.deliver =>
      match c.buffered with
      | [] => c
      | f :: rest => { c with buffered := rest, delivered := c.delivered ++ [f] }
  | CoordEvent.replyComplete =>
      match c.state with
      | CoordState.generating _ => { c with state := CoordState.speaking }
      | _ => c
  | CoordEvent.toolsRequested =>
      match c.state with
      | CoordState.generating _ => { c with state := CoordState.awaitingTool }
      | _ => c
  | CoordEvent.playbackComplete =>
      match c.state with
      | CoordState.speaking => { c with state := CoordState.idle }
      | _ => c

/-- Run a sequence of coordinator events. -/
def runCoord (c : Coordinator) (evs : List CoordEvent) : Coordinator :=
  evs.foldl coordStep c

/-- Modelled from the spec: a tool call the model requested in one turn, with
its correlation id. The dispatch/collection code is in the pipecat framework,
not in src/. -/
structure ToolRequest where
  id : String
  name : String
  arguments : String
deriving DecidableEq, Repr

/-- Modelled from the spec: the tool-result message appended to the context
for one completed invocation. -/
structure ToolResultMsg where
  tool_call_id : String
  content : String
deriving DecidableEq, Repr

/-- Modelled from the spec (§4.3): handlers of one turn run concurrently and
finish in any order; `completed` lists (correlation id, result) pairs in
completion order. The coordinator appends result messages in the order the
model requested the calls, and yields `none` — the model is not re-invoked —
while any requested invocation is outstanding. -/
def collectToolResults (requests : List ToolRequest)
    (completed : List (String × String)) : Option (List ToolResultMsg) :=
  match requests with
  | [] => some []
  | r :: rs =>
      match completed.lookup r.id, collectToolResults rs completed with
      | some res, some rest => some (⟨r.id, res⟩ :: rest)
      | _, _ => none

/-! ## src/server.py: call-metadata encoding between /answer and /ws

`/answer` builds `body_data = {"from": caller, "to": callee, "call_uuid":
call_uuid}`, serializes it with `json.dumps` (default separators,
`ensure_ascii=True`), encodes the UTF-8 bytes with standard `base64.b64encode`
and embeds the result as the `body` query parameter of the WebSocket URL.
`/ws` reverses this with `base64.b64decode` and `json.loads`. The JSON
serializer below follows CPython's `json` escaping exactly; the parser models
`json.loads` restricted to the one document shape `/answer` produces (a flat
object of three string fields) — `json.loads` is strict-mode, rejecting raw
control characters, and combines `\uXXXX` surrogate pairs. -/

/-- Lowercase hexadecimal digit, as CPython's `"\\u%04x"` formatting prints. -/
def hexDigit (n : ℕ) : Char :=
  if n < 10 then Char.ofNat (48 + n) else Char.ofNat (87 + n)

/-- Value of a hexadecimal digit character (either case), as `json.loads`
reads one. -/
def fromHexDigit (c : Char) : Option ℕ :=
  if 48 ≤ c.toNat ∧ c.toNat ≤ 57 then some (c.toNat - 48)
  else if 97 ≤ c.toNat ∧ c.toNat ≤ 102 then some (c.toNat - 87)
  else if 65 ≤ c.toNat ∧ c.toNat ≤ 70 then some (c.toNat - 55)
  else none

/-- The six-character `\uXXXX` escape of a UTF-16 code unit `n < 0x10000`. -/
def u4 (n : ℕ) : List Char :=
  ['\\', 'u', hexDigit (n / 4096 % 16), hexDigit (n / 256 % 16),
   hexDigit (n / 16 % 16), hexDigit (n % 16)]

/-- CPython `json.dumps` escaping of one character with `ensure_ascii=True`:
quote and backslash get two-character escapes, the five named control
characters get their short escapes, other controls get `\u00XX`, printable
ASCII passes through, every non-ASCII character becomes `\uXXXX` (a surrogate
pair when beyond the BMP). -/
def escapeChar (c : Char) : List Char :=
  if c = '"' then ['\\', '"']
  else if c = '\\' then ['\\', '\\']
  else if c.toNat = 8 then ['\\', 'b']
  else if c.toNat = 9 then ['\\', 't']
  else if c.toNat = 10 then ['\\', 'n']
  else if c.toNat = 12 then ['\\', 'f']
  else if c.toNat = 13 then ['\\', 'r']
  else if c.toNat < 32 then u4 c.toNat
  else if c.toNat < 127 then [c]
  else if c.toNat < 65536 then u4 c.toNat
  else u4 (55296 + (c.toNat - 65536) / 1024) ++ u4 (56320 + (c.toNat - 65536) % 1024)

/-- Escape a whole string (the body of a JSON string literal). -/
def escapeString (s : String) : List Char :=
  s.data.foldr (fun c acc => escapeChar c ++ acc) []

/-- The character a two-character JSON backslash escape denotes, as
`json.loads` reads one (`\u` is handled separately). -/
def escShort (e : Char) : Option Char :=
  if e = '"' then some '"'
  else if e = '\\' then some '\\'
  else if e = '/' then some '/'
  else if e = 'b' then some (Char.ofNat 8)
  else if e = 'f' then some (Char.ofNat 12)
  else if e = 'n' then some (Char.ofNat 10)
  else if e = 'r' then some (Char.ofNat 13)
  else if e = 't' then some (Char.ofNat 9)
  else none

/-- The UTF-16 code units of one character. -/
def charUnits (c : Char) : List ℕ :=
  if c.toNat < 65536 then [c.toNat]
  else [55296 + (c.toNat - 65536) / 1024, 56320 + (c.toNat - 65536) % 1024]

/-- The UTF-16 code units of a character sequence. -/
def utf16units (cs : List Char) : List ℕ :=
  cs.foldr (fun c acc => charUnits c ++ acc) []

mutual

/-- First phase of `json.loads` string scanning, after the opening quote:
lex the literal into UTF-16 code units (one per plain character, two-character
escape or `\uXXXX` group), returning them with the input after the closing
quote. Raw control characters are rejected, as in strict-mode `json.loads`. -/
def lexUnits : List Char → Option (List ℕ × List Char)
  | [] => none
  | c :: rest =>
      if c = '"' then some ([], rest)
      else if c = '\\' then lexEscape rest
      else if c.toNat < 32 then none
      else (lexUnits rest).map (fun p => (c.toNat :: p.1, p.2))
termination_by cs => 2 * cs.length
decreasing_by all_goals (simp only [List.length_cons]; omega)

/-- Lex what follows a backslash. -/
def lexEscape : List Char → Option (List ℕ × List Char)
  | [] => none
  | e :: rest1 =>
      if e = 'u' then lexHex4 rest1
      else
        match escShort e with
        | some d => (lexUnits rest1).map (fun p => (d.toNat :: p.1, p.2))
        | none => none
termination_by cs => 2 * cs.length + 1
decreasing_by all_goals (simp only [List.length_cons]; omega)

/-- Lex the four hex digits of a `\uXXXX` group. -/
def lexHex4 : List Char → Option (List ℕ × List Char)
  | h1 :: h2 :: h3 :: h4 :: rest2 =>
      match fromHexDigit h1, fromHexDigit h2, fromHexDigit h3, fromHexDigit h4 with
      | some a, some b, some cc, some d =>
          (lexUnits rest2).map (fun p => ((4096 * a + 256 * b + 16 * cc + d) :: p.1, p.2))
      | _, _, _, _ => none
  | _ => none
termination_by cs => 2 * cs.length + 1
decreasing_by all_goals (simp only [List.length_cons]; omega)

end

mutual

/-- Second phase: recombine a UTF-16 code-unit sequence into characters,
merging high/low surrogate pairs as `json.loads` does. Lone surrogates are
rejected (Python would keep them as unpaired surrogate code points, which are
not Unicode scalar values; `/answer` never produces them). -/
def unitsToChars : List ℕ → Option (List Char)
  | [] => some []
  | u :: us =>
      if 55296 ≤ u ∧ u < 56320 then pairLow u us
      else if 56320 ≤ u ∧ u < 57344 then none
      else (unitsToChars us).map (fun cs => Char.ofNat u :: cs)
termination_by us => 2 * us.length
decreasing_by all_goals (simp only [List.length_cons]; omega)

/-- Pair a high surrogate with the low surrogate that must follow it. -/
def pairLow (u : ℕ) : List ℕ → Option (List Char)
  | [] => none
  | u2 :: us2 =>
      if 56320 ≤ u2 ∧ u2 < 57344 then
        (unitsToChars us2).map
          (fun cs => Char.ofNat (65536 + 1024 * (u - 55296) + (u2 - 56320)) :: cs)
      else none
termination_by us => 2 * us.length + 1
decreasing_by all_goals (simp only [List.length_cons]; omega)

end

/-- `json.loads` scanning of a string literal after its opening quote:
returns the decoded content and the input after the closing quote. -/
def parseJString (cs : List Char) : Option (List Char × List Char) :=
  match lexUnits cs with
  | some (us, rem) =>
      match unitsToChars us with
      | some s => some (s, rem)
      | none => none
  | none => none

/-- Consume an exact literal from the front of the input. -/
def expectLit : List Char → List Char → Option (List Char)
  | [], cs => some cs
  | _ :: _, [] => none
  | p :: ps, c :: cs => if c = p then expectLit ps cs else none

/-- `json.dumps({"from": caller, "to": callee, "call_uuid": call_uuid})` with
CPython defaults: insertion-ordered keys, separators `", "` and `": "`,
ASCII-escaped string values. -/
def jsonDumpsBody (caller callee uuid : String) : List Char :=
  "\x7b\"from\": \"".data ++ escapeString caller ++
  "\", \"to\": \"".data ++ escapeString callee ++
  "\", \"call_uuid\": \"".data ++ escapeString uuid ++ "\"\x7d".data

/-- `json.loads` on the document shape `/answer` produces: the object with
exactly the keys `from`, `to`, `call_uuid` and string values. -/
def parseBody (cs : List Char) : Option (String × String × String) :=
  match expectLit "\x7b\"from\": \"".data cs with
  | none => none
  | some cs1 =>
      match parseJString cs1 with
      | none => none
      | some (f, cs2) =>
          match expectLit ", \"to\": \"".data cs2 with
          | none => none
          | some cs3 =>
              match parseJString cs3 with
              | none => none
              | some (t, cs4) =>
                  match expectLit ", \"call_uuid\": \"".data cs4 with
                  | none => none
                  | some cs5 =>
                      match parseJString cs5 with
                      | none => none
                      | some (u, cs6) =>
                          match expectLit "\x7d".data cs6 with
                          | some [] => some (⟨f⟩, ⟨t⟩, ⟨u⟩)
                          | _ => none

/-- The standard base64 alphabet. -/
def b64Table : List Char :=
  "ABCDEFGHIJKLMNOPQRSTUVWXYZabcdefghijklmnopqrstuvwxyz0123456789+/".data

/-- Sextet to base64 character. -/
def b64Char (n : ℕ) : Char := b64Table.getD n 'A'

/-- Base64 character back to its sextet. -/
def b64Val (c : Char) : Option ℕ := b64Table.findIdx? (fun x => x == c)

/-- Standard `base64.b64encode` over bytes, three at a time, `=`-padded. -/
def b64encodeBytes : List ℕ → List Char
  | [] => []
  | [b1] => [b64Char (b1 / 4), b64Char (b1 % 4 * 16), '=', '=']
  | [b1, b2] =>
      [b64Char (b1 / 4), b64Char (b1 % 4 * 16 + b2 / 16), b64Char (b2 % 16 * 4), '=']
  | b1 :: b2 :: b3 :: bs =>
      b64Char (b1 / 4) :: b64Char (b1 % 4 * 16 + b2 / 16) ::
      b64Char (b2 % 16 * 4 + b3 / 64) :: b64Char (b3 % 64) :: b64encodeBytes bs

/-- `base64.b64decode`: quad by quad, with `=` padding permitted only at the
very end; as in CPython, bits left over under a padded quad are discarded. -/
def b64decodeBytes : List Char → Option (List ℕ)
  | [] => some []
  | c1 :: c2 :: c3 :: c4 :: rest =>
      if c3 = '=' ∧ c4 = '=' ∧ rest = [] then
        match b64Val c1, b64Val c2 with
        | some d1, some d2 => some [d1 * 4 + d2 / 16]
        | _, _ => none
      else if c4 = '=' ∧ rest = [] then
        match b64Val c1, b64Val c2, b64Val c3 with
        | some d1, some d2, some d3 =>
            some [d1 * 4 + d2 / 16, d2 % 16 * 16 + d3 / 4]
        | _, _, _ => none
      else
        match b64Val c1, b64Val c2, b64Val c3, b64Val c4, b64decodeBytes rest with
        | some d1, some d2, some d3, some d4, some bs =>
            some ((d1 * 4 + d2 / 16) :: (d2 % 16 * 16 + d3 / 4) :: (d3 % 4 * 64 + d4) :: bs)
        | _, _, _, _, _ => none
  | _ => none

/-- `str.encode()` of an ASCII-only string: one byte per code point. -/
def charsToBytes (cs : List Char) : List ℕ := cs.map Char.toNat

/-- `bytes.decode()` restricted to ASCII input (all the bytes `/answer`
base64-encodes are ASCII, since `json.dumps` escapes everything else). -/
def bytesToChars (bs : List ℕ) : Option (List Char) :=
  if bs.all (fun b => decide (b < 128)) then some (bs.map Char.ofNat) else none

/-- The `body` query parameter `/answer` embeds in the WebSocket URL
(src/server.py lines 134-136):
`base64.b64encode(json.dumps(body_data).encode()).decode()`. -/
def encodeBody (caller callee uuid : String) : List Char :=
  b64encodeBytes (charsToBytes (jsonDumpsBody caller callee uuid))

/-- The decoding `/ws` performs (src/server.py lines 153-160):
`json.loads(base64.b64decode(body_b64).decode())`. -/
def decodeBody (b64 : List Char) : Option (String × String × String) :=
  match b64decodeBytes b64 with
  | none => none
  | some bs =>
      match bytesToChars bs with
      | none => none
      | some cs => parseBody cs

/-- src/bot.py lines 250-251: `body = runner_args.body or {}` then
`caller_number = body.get("from", "unknown")`. -/
def botCallerNumber : Option (String × String × String) → String
  | some (f, _, _) => f
  | none => "unknown"

end Receptionist

namespace Receptionist

/-! ## Helper lemmas -/

theorem runEvents_cons (e : DbEnv) (st : BotState) (ev : BotEvent) (evs : List BotEvent) :
    runEvents e st (ev :: evs) = runEvents e (stepEvent e st ev) evs := rfl

theorem runEvents_append (e : DbEnv) (st : BotState) (l1 l2 : List BotEvent) :
    runEvents e st (l1 ++ l2) = runEvents e (runEvents e st l1) l2 :=
  List.foldl_append ..

theorem pyStrip_empty : pyStrip "" = "" := rfl

theorem log_call_good (e : DbEnv) (rows : List Row)
    (caller tr intent : String) (dur : ℤ)
    (h1 : urlTruthy e.postgres_url = true) (h2 : e.connect = ConnAttempt.success)
    (h3 : e.query = QueryAttempt.success) :
    log_call e rows caller tr intent dur =
      Except.ok (rows ++ [⟨caller, tr, intent, dur⟩], LogOutcome.logged) := by
  simp [log_call, get_connection, h1, h2, h3]

theorem stepEvent_disconnect_good (e : DbEnv) (st : BotState) (now : ℚ)
    (h1 : urlTruthy e.postgres_url = true) (h2 : e.connect = ConnAttempt.success)
    (h3 : e.query = QueryAttempt.success) :
    stepEvent e st (BotEvent.clientDisconnected now) =
      { st with
          rows := st.rows ++ [⟨st.tracker.caller_number, st.tracker.transcript,
            st.tracker.detected_intent, st.tracker.duration now⟩]
          cancelled := true } := by
  simp [stepEvent, CallTracker.save, log_call_good e st.rows _ _ _ _ h1 h2 h3]

/-- The tracker's transcript is only ever changed by `on_transcript`, which
appends exactly the lines `userLine` describes. -/
theorem runEvents_transcript_parts (e : DbEnv) (st : BotState) (evs : List BotEvent) :
    (runEvents e st evs).tracker.transcript_parts =
      st.tracker.transcript_parts ++ evs.filterMap userLine := by
  induction evs generalizing st with
  | nil => simp [runEvents]
  | cons ev evs ih =>
      rw [runEvents_cons, ih]
      cases ev with
      | clientConnected => simp [stepEvent, userLine]
      | clientDisconnected now =>
          rcases hsave : st.tracker.save e st.rows now with m | pair <;>
            simp [stepEvent, hsave, userLine]
      | sttTranscript t =>
          match t with
          | none => simp [stepEvent, userLine]
          | some s =>
              by_cases hs : s = ""
              · simp [stepEvent, userLine, hs, pyStrip_empty]
              · by_cases hp : pyStrip s = ""
                · simp [stepEvent, userLine, hs, hp]
                · simp [stepEvent, userLine, hs, hp, CallTracker.add_user_message]
      | toolCall n => simp [stepEvent, userLine, CallTracker.set_intent]
      | assistantReply s => simp [stepEvent, userLine]

/-- The tracker's intent is only ever changed by the tool handlers: after a
run it is the label of the last handler that ran, defaulting to the prior
value. -/
theorem runEvents_intent (e : DbEnv) (st : BotState) (evs : List BotEvent) :
    (runEvents e st evs).tracker.detected_intent =
      (lastSetIntent evs).getD st.tracker.detected_intent := by
  induction evs generalizing st with
  | nil => simp [runEvents, lastSetIntent]
  | cons ev evs ih =>
      rw [runEvents_cons, ih]
      rcases hl : lastSetIntent evs with _ | i
      · cases ev with
        | clientConnected => simp [stepEvent, lastSetIntent, hl]
        | clientDisconnected now =>
            rcases hsave : st.tracker.save e st.rows now with m | pair <;>
              simp [stepEvent, hsave, lastSetIntent, hl]
        | sttTranscript t =>
            match t with
            | none => simp [stepEvent, lastSetIntent, hl]
            | some s =>
                by_cases hs : s = ""
                · simp [stepEvent, lastSetIntent, hl, hs, pyStrip_empty]
                · by_cases hp : pyStrip s = ""
                  · simp [stepEvent, lastSetIntent, hl, hs, hp]
                  · simp [stepEvent, lastSetIntent, hl, hs, hp,
                      CallTracker.add_user_message]
        | toolCall n => simp [stepEvent, lastSetIntent, hl, CallTracker.set_intent]
        | assistantReply s => simp [stepEvent, lastSetIntent, hl]
      · simp [lastSetIntent, hl]

/-- Applying context operations only ever extends the list. -/
theorem applyOps_extends (ctx : List Message) (ops : List ContextOp) :
    ∃ suffix, applyOps ctx ops = ctx ++ suffix := by
  induction ops generalizing ctx with
  | nil => exact ⟨[], by simp [applyOps]⟩
  | cons op ops ih =>
      have hstep : ∃ m, applyOp ctx op = ctx ++ [m] := by
        cases op <;> exact ⟨_, rfl⟩
      rcases hstep with ⟨m, hm⟩
      rcases ih (ctx ++ [m]) with ⟨s, hs⟩
      exact ⟨m :: s, by
        show applyOps (applyOp ctx op) ops = ctx ++ m :: s
        rw [hm, hs]; simp⟩

/-! ### JSON/base64 round-trip lemmas for src/server.py -/

theorem fromHexDigit_hexDigit : ∀ n < 16, fromHexDigit (hexDigit n) = some n := by decide

theorem char_not_surrogate (c : Char) :
    ¬(55296 ≤ c.toNat ∧ c.toNat < 57344) ∧ c.toNat < 1114112 := by
  have h := c.valid
  rcases h with h | ⟨h1, h2⟩
  · have : c.toNat < 55296 := by
      simpa [Char.toNat, UInt32.lt_def, BitVec.lt_def] using h
    exact ⟨by omega, by omega⟩
  · have e1 : 57344 ≤ c.toNat := by
      simpa [Char.toNat, UInt32.lt_def, BitVec.lt_def] using h1
    have e2 : c.toNat < 1114112 := by
      simpa [Char.toNat, UInt32.lt_def, BitVec.lt_def] using h2
    exact ⟨by omega, by omega⟩

theorem lexUnits_u4 (k : ℕ) (hk : k < 65536) (rest : List Char) :
    lexUnits (u4 k ++ rest) =
      (lexUnits rest).map (fun p => (k :: p.1, p.2)) := by
  have hd1 := fromHexDigit_hexDigit (k / 4096 % 16) (by omega)
  have hd2 := fromHexDigit_hexDigit (k / 256 % 16) (by omega)
  have hd3 := fromHexDigit_hexDigit (k / 16 % 16) (by omega)
  have hd4 := fromHexDigit_hexDigit (k % 16) (by omega)
  have e4 : 4096 * (k / 4096 % 16) + 256 * (k / 256 % 16) + 16 * (k / 16 % 16) + k % 16 = k := by
    omega
  rcases h : lexUnits rest with _ | ⟨us, rem⟩ <;>
    simp [u4, lexUnits, lexEscape, lexHex4, hd1, hd2, hd3, hd4, h, e4]

theorem lexUnits_escapeChar (c : Char) (rest : List Char) :
    lexUnits (escapeChar c ++ rest) =
      (lexUnits rest).map (fun p => (charUnits c ++ p.1, p.2)) := by
  have hv := char_not_surrogate c
  by_cases h1 : c = '"'
  · subst h1
    rcases h : lexUnits rest with _ | ⟨us, rem⟩ <;>
      simp [escapeChar, lexUnits, lexEscape, escShort, charUnits, h]
  by_cases h2 : c = '\\'
  · subst h2
    rcases h : lexUnits rest with _ | ⟨us, rem⟩ <;>
      simp [escapeChar, lexUnits, lexEscape, escShort, charUnits, h]
  by_cases h3 : c.toNat = 8
  · rcases h : lexUnits rest with _ | ⟨us, rem⟩ <;>
      simp [escapeChar, lexUnits, lexEscape, escShort, charUnits, h, h1, h2, h3]
  by_cases h4 : c.toNat = 9
  · rcases h : lexUnits rest with _ | ⟨us, rem⟩ <;>
      simp [escapeChar, lexUnits, lexEscape, escShort, charUnits, h, h1, h2, h3, h4]
  by_cases h5 : c.toNat = 10
  · rcases h : lexUnits rest with _ | ⟨us, rem⟩ <;>
      simp [escapeChar, lexUnits, lexEscape, escShort, charUnits, h, h1, h2, h3, h4, h5]
  by_cases h6 : c.toNat = 12
  · rcases h : lexUnits rest with _ | ⟨us, rem⟩ <;>
      simp [escapeChar, lexUnits, lexEscape, escShort, charUnits, h, h1, h2, h3, h4, h5, h6]
  by_cases h7 : c.toNat = 13
  · rcases h : lexUnits rest with _ | ⟨us, rem⟩ <;>
      simp [escapeChar, lexUnits, lexEscape, escShort, charUnits, h, h1, h2, h3, h4, h5, h6, h7]
  by_cases h8 : c.toNat < 32
  · have hesc : escapeChar c = u4 c.toNat := by
      simp [escapeChar, h1, h2, h3, h4, h5, h6, h7, h8]
    rw [hesc, lexUnits_u4 c.toNat (by omega)]
    have hcu : charUnits c = [c.toNat] := by simp [charUnits]; omega
    rw [hcu]
    rfl
  by_cases h9 : c.toNat < 127
  · have hesc : escapeChar c = [c] := by
      simp [escapeChar, h1, h2, h3, h4, h5, h6, h7, h8, h9]
    have hcu : charUnits c = [c.toNat] := by simp [charUnits]; omega
    rw [hesc, hcu]
    rcases h : lexUnits rest with _ | ⟨us, rem⟩ <;>
      simp [lexUnits, h1, h2, h8, h]
  by_cases h10 : c.toNat < 65536
  · have hesc : escapeChar c = u4 c.toNat := by
      simp [escapeChar, h1, h2, h3, h4, h5, h6, h7, h8, h9, h10]
    have hcu : charUnits c = [c.toNat] := by simp [charUnits]; omega
    rw [hesc, lexUnits_u4 c.toNat (by omega), hcu]
    rfl
  · have hesc : escapeChar c =
        u4 (55296 + (c.toNat - 65536) / 1024) ++ u4 (56320 + (c.toNat - 65536) % 1024) := by
      simp [escapeChar, h1, h2, h3, h4, h5, h6, h7, h8, h9, h10]
    have hcu : charUnits c =
        [55296 + (c.toNat - 65536) / 1024, 56320 + (c.toNat - 65536) % 1024] := by
      simp [charUnits]; omega
    have hlt : c.toNat < 1114112 := hv.2
    rw [hesc, hcu, List.append_assoc]
    rw [lexUnits_u4 (55296 + (c.toNat - 65536) / 1024) (by omega)]
    rw [lexUnits_u4 (56320 + (c.toNat - 65536) % 1024) (by omega)]
    rcases h : lexUnits rest with _ | ⟨us, rem⟩ <;> simp [h]

theorem ofNat_toNat_char (c : Char) : Char.ofNat c.toNat = c := Char.ofNat_toNat c

theorem unitsToChars_charUnits (c : Char) (us : List ℕ) :
    unitsToChars (charUnits c ++ us) = (unitsToChars us).map (fun cs => c :: cs) := by
  have hv := char_not_surrogate c
  by_cases hb : c.toNat < 65536
  · have hcu : charUnits c = [c.toNat] := by simp [charUnits, hb]
    have hns1 : ¬(55296 ≤ c.toNat ∧ c.toNat < 56320) := by omega
    have hns2 : ¬(56320 ≤ c.toNat ∧ c.toNat < 57344) := by omega
    rw [hcu]
    rcases h : unitsToChars us with _ | cs <;>
      simp [unitsToChars, h, if_neg hns1, if_neg hns2, ofNat_toNat_char]
  · have hcu : charUnits c =
        [55296 + (c.toNat - 65536) / 1024, 56320 + (c.toNat - 65536) % 1024] := by
      simp [charUnits]; omega
    have hlt : c.toNat < 1114112 := hv.2
    have hhi : 55296 ≤ 55296 + (c.toNat - 65536) / 1024 ∧
        55296 + (c.toNat - 65536) / 1024 < 56320 := by omega
    have hlo : 56320 ≤ 56320 + (c.toNat - 65536) % 1024 ∧
        56320 + (c.toNat - 65536) % 1024 < 57344 := by omega
    have hmerge : 65536 + 1024 * ((c.toNat - 65536) / 1024) + (c.toNat - 65536) % 1024
        = c.toNat := by omega
    rw [hcu]
    rcases h : unitsToChars us with _ | cs <;>
      simp [unitsToChars, pairLow, h, hhi, hlo, hmerge, ofNat_toNat_char]

theorem lexUnits_escape_foldr (cs : List Char) (rest : List Char) :
    lexUnits (cs.foldr (fun c acc => escapeChar c ++ acc) ('"' :: rest)) =
      some (utf16units cs, rest) := by
  induction cs with
  | nil => simp [lexUnits, utf16units]
  | cons c cs ih =>
      simp only [List.foldr_cons]
      rw [lexUnits_escapeChar, ih]
      simp [utf16units]

theorem unitsToChars_utf16units (cs : List Char) :
    unitsToChars (utf16units cs) = some cs := by
  induction cs with
  | nil => simp [utf16units, unitsToChars]
  | cons c cs ih =>
      show unitsToChars (charUnits c ++ utf16units cs) = _
      rw [unitsToChars_charUnits, ih]
      rfl

theorem escape_foldr_append (cs : List Char) (x : List Char) :
    cs.foldr (fun c acc => escapeChar c ++ acc) [] ++ x =
      cs.foldr (fun c acc => escapeChar c ++ acc) x := by
  induction cs with
  | nil => simp
  | cons c cs ih => simp [List.foldr_cons, List.append_assoc, ih]

theorem parseJString_escape (s : String) (rest : List Char) :
    parseJString (escapeString s ++ '"' :: rest) = some (s.data, rest) := by
  rw [escapeString, escape_foldr_append]
  simp [parseJString, lexUnits_escape_foldr, unitsToChars_utf16units]

theorem expectLit_append (pat rest : List Char) : expectLit pat (pat ++ rest) = some rest := by
  induction pat with
  | nil => rfl
  | cons p ps ih => simp [expectLit, ih]

theorem parseBody_jsonDumpsBody (caller callee uuid : String) :
    parseBody (jsonDumpsBody caller callee uuid) = some (caller, callee, uuid) := by
  have hp2 : ("\", \"to\": \"".data : List Char) = '"' :: ", \"to\": \"".data := rfl
  have hp3 : ("\", \"call_uuid\": \"".data : List Char) =
      '"' :: ", \"call_uuid\": \"".data := rfl
  have hp4 : ("\"\x7d".data : List Char) = '"' :: "\x7d".data := rfl
  have h1 : jsonDumpsBody caller callee uuid =
      "\x7b\"from\": \"".data ++ (escapeString caller ++ '"' ::
        (", \"to\": \"".data ++ (escapeString callee ++ '"' ::
          (", \"call_uuid\": \"".data ++ (escapeString uuid ++ '"' :: "\x7d".data))))) := by
    rw [jsonDumpsBody, hp2, hp3, hp4]
    simp [List.append_assoc]
  rw [h1]
  simp only [parseBody, expectLit_append, parseJString_escape]
  simp [expectLit]

theorem u4_ascii (k : ℕ) : ∀ x ∈ u4 k, x.toNat < 128 := by
  have hhex : ∀ n < 16, (hexDigit n).toNat < 128 := by decide
  intro x hx
  simp [u4] at hx
  rcases hx with h | h | h | h | h | h <;> subst h
  · decide
  · decide
  · exact hhex _ (Nat.mod_lt _ (by omega))
  · exact hhex _ (Nat.mod_lt _ (by omega))
  · exact hhex _ (Nat.mod_lt _ (by omega))
  · exact hhex _ (Nat.mod_lt _ (by omega))

theorem escapeChar_ascii (c : Char) : ∀ x ∈ escapeChar c, x.toNat < 128 := by
  intro x hx
  by_cases h1 : c = '"'
  · subst h1; simp [escapeChar] at hx
    rcases hx with h | h <;> subst h <;> decide
  by_cases h2 : c = '\\'
  · subst h2; simp [escapeChar] at hx
    subst hx; decide
  by_cases h3 : c.toNat = 8
  · have hesc : escapeChar c = ['\\', 'b'] := by simp [escapeChar, h1, h2, h3]
    rw [hesc] at hx; simp at hx
    rcases hx with h | h <;> subst h <;> decide
  by_cases h4 : c.toNat = 9
  · have hesc : escapeChar c = ['\\', 't'] := by simp [escapeChar, h1, h2, h3, h4]
    rw [hesc] at hx; simp at hx
    rcases hx with h | h <;> subst h <;> decide
  by_cases h5 : c.toNat = 10
  · have hesc : escapeChar c = ['\\', 'n'] := by simp [escapeChar, h1, h2, h3, h4, h5]
    rw [hesc] at hx; simp at hx
    rcases hx with h | h <;> subst h <;> decide
  by_cases h6 : c.toNat = 12
  · have hesc : escapeChar c = ['\\', 'f'] := by simp [escapeChar, h1, h2, h3, h4, h5, h6]
    rw [hesc] at hx; simp at hx
    rcases hx with h | h <;> subst h <;> decide
  by_cases h7 : c.toNat = 13
  · have hesc : escapeChar c = ['\\', 'r'] := by
      simp [escapeChar, h1, h2, h3, h4, h5, h6, h7]
    rw [hesc] at hx; simp at hx
    rcases hx with h | h <;> subst h <;> decide
  by_cases h8 : c.toNat < 32
  · have hesc : escapeChar c = u4 c.toNat := by
      simp [escapeChar, h1, h2, h3, h4, h5, h6, h7, h8]
    rw [hesc] at hx
    exact u4_ascii _ x hx
  by_cases h9 : c.toNat < 127
  · have hesc : escapeChar c = [c] := by
      simp [escapeChar, h1, h2, h3, h4, h5, h6, h7, h8, h9]
    rw [hesc] at hx; simp at hx
    subst hx; omega
  by_cases h10 : c.toNat < 65536
  · have hesc : escapeChar c = u4 c.toNat := by
      simp [escapeChar, h1, h2, h3, h4, h5, h6, h7, h8, h9, h10]
    rw [hesc] at hx
    exact u4_ascii _ x hx
  · have hesc : escapeChar c =
        u4 (55296 + (c.toNat - 65536) / 1024) ++ u4 (56320 + (c.toNat - 65536) % 1024) := by
      simp [escapeChar, h1, h2, h3, h4, h5, h6, h7, h8, h9, h10]
    rw [hesc] at hx
    rcases List.mem_append.mp hx with h | h
    · exact u4_ascii _ x h
    · exact u4_ascii _ x h

theorem mem_escape_foldr (cs : List Char) (x : Char)
    (hx : x ∈ cs.foldr (fun c acc => escapeChar c ++ acc) []) :
    ∃ c, x ∈ escapeChar c := by
  induction cs with
  | nil => simp at hx
  | cons c cs ih =>
      simp only [List.foldr_cons, List.mem_append] at hx
      rcases hx with h | h
      · exact ⟨c, h⟩
      · exact ih h

theorem jsonDumpsBody_ascii (caller callee uuid : String) :
    ∀ x ∈ jsonDumpsBody caller callee uuid, x.toNat < 128 := by
  have hlit1 : ∀ x ∈ ("\x7b\"from\": \"".data : List Char), x.toNat < 128 := by decide
  have hlit2 : ∀ x ∈ ("\", \"to\": \"".data : List Char), x.toNat < 128 := by decide
  have hlit3 : ∀ x ∈ ("\", \"call_uuid\": \"".data : List Char), x.toNat < 128 := by decide
  have hlit4 : ∀ x ∈ ("\"\x7d".data : List Char), x.toNat < 128 := by decide
  intro x hx
  simp only [jsonDumpsBody, List.mem_append, escapeString] at hx
  rcases hx with ((((((h | h) | h) | h) | h) | h) | h)
  · exact hlit1 x h
  · rcases mem_escape_foldr _ x h with ⟨c, hc⟩; exact escapeChar_ascii c x hc
  · exact hlit2 x h
  · rcases mem_escape_foldr _ x h with ⟨c, hc⟩; exact escapeChar_ascii c x hc
  · exact hlit3 x h
  · rcases mem_escape_foldr _ x h with ⟨c, hc⟩; exact escapeChar_ascii c x hc
  · exact hlit4 x h

theorem b64Val_b64Char : ∀ n < 64, b64Val (b64Char n) = some n := by decide

theorem b64Char_ne_pad : ∀ n < 64, b64Char n ≠ '=' := by decide

theorem b64_roundtrip : ∀ bs : List ℕ, (∀ b ∈ bs, b < 256) →
    b64decodeBytes (b64encodeBytes bs) = some bs
  | [] => fun _ => rfl
  | [b1] => fun h => by
      have hb1 : b1 < 256 := h b1 (by simp)
      simp only [b64encodeBytes, b64decodeBytes]
      rw [if_pos (by simp)]
      rw [b64Val_b64Char (b1 / 4) (by omega), b64Val_b64Char (b1 % 4 * 16) (by omega)]
      simp only []
      congr 1
      have : b1 / 4 * 4 + b1 % 4 * 16 / 16 = b1 := by omega
      rw [this]
  | [b1, b2] => fun h => by
      have hb1 : b1 < 256 := h b1 (by simp)
      have hb2 : b2 < 256 := h b2 (by simp)
      simp only [b64encodeBytes, b64decodeBytes]
      rw [if_neg (fun hcon => b64Char_ne_pad (b2 % 16 * 4) (by omega) hcon.1)]
      rw [if_pos (by simp)]
      rw [b64Val_b64Char (b1 / 4) (by omega),
        b64Val_b64Char (b1 % 4 * 16 + b2 / 16) (by omega),
        b64Val_b64Char (b2 % 16 * 4) (by omega)]
      simp only []
      congr 1
      have e1 : b1 / 4 * 4 + (b1 % 4 * 16 + b2 / 16) / 16 = b1 := by omega
      have e2 : (b1 % 4 * 16 + b2 / 16) % 16 * 16 + b2 % 16 * 4 / 4 = b2 := by omega
      rw [e1, e2]
  | b1 :: b2 :: b3 :: bs => fun h => by
      have hb1 : b1 < 256 := h b1 (by simp)
      have hb2 : b2 < 256 := h b2 (by simp)
      have hb3 : b3 < 256 := h b3 (by simp)
      have ih := b64_roundtrip bs (fun b hb => h b (by simp [hb]))
      rcases henc : b64encodeBytes bs with _ | ⟨x, xs⟩
      · -- bs encodes to [], so the quad stands alone, no padding chars in it
        simp only [b64encodeBytes, b64decodeBytes, henc]
        rw [if_neg (fun hcon => b64Char_ne_pad (b2 % 16 * 4 + b3 / 64) (by omega) hcon.1)]
        rw [if_neg (fun hcon => b64Char_ne_pad (b3 % 64) (by omega) hcon.1)]
        rw [b64Val_b64Char (b1 / 4) (by omega),
          b64Val_b64Char (b1 % 4 * 16 + b2 / 16) (by omega),
          b64Val_b64Char (b2 % 16 * 4 + b3 / 64) (by omega),
          b64Val_b64Char (b3 % 64) (by omega)]
        rw [henc] at ih
        simp only [ih]
        congr 1
        have e1 : b1 / 4 * 4 + (b1 % 4 * 16 + b2 / 16) / 16 = b1 := by omega
        have e2 : (b1 % 4 * 16 + b2 / 16) % 16 * 16 + (b2 % 16 * 4 + b3 / 64) / 4 = b2 := by omega
        have e3 : (b2 % 16 * 4 + b3 / 64) % 4 * 64 + b3 % 64 = b3 := by omega
        rw [e1, e2, e3]
        have hbs : some ([] : List ℕ) = some bs := by
          rw [← ih]; rfl
        simpa using hbs
      · simp only [b64encodeBytes, b64decodeBytes, henc]
        rw [if_neg (fun hcon => List.cons_ne_nil x xs hcon.2.2)]
        rw [if_neg (fun hcon => List.cons_ne_nil x xs hcon.2)]
        rw [b64Val_b64Char (b1 / 4) (by omega),
          b64Val_b64Char (b1 % 4 * 16 + b2 / 16) (by omega),
          b64Val_b64Char (b2 % 16 * 4 + b3 / 64) (by omega),
          b64Val_b64Char (b3 % 64) (by omega)]
        rw [henc] at ih
        simp only [ih]
        congr 1
        have e1 : b1 / 4 * 4 + (b1 % 4 * 16 + b2 / 16) / 16 = b1 := by omega
        have e2 : (b1 % 4 * 16 + b2 / 16) % 16 * 16 + (b2 % 16 * 4 + b3 / 64) / 4 = b2 := by omega
        have e3 : (b2 % 16 * 4 + b3 / 64) % 4 * 64 + b3 % 64 = b3 := by omega
        rw [e1, e2, e3]

theorem decodeBody_encodeBody (caller callee uuid : String) :
    decodeBody (encodeBody caller callee uuid) = some (caller, callee, uuid) := by
  have hascii := jsonDumpsBody_ascii caller callee uuid
  have hbytes : ∀ b ∈ charsToBytes (jsonDumpsBody caller callee uuid), b < 256 := by
    intro b hb
    simp only [charsToBytes, List.mem_map] at hb
    rcases hb with ⟨x, hx, rfl⟩
    exact lt_trans (hascii x hx) (by norm_num)
  have hb64 := b64_roundtrip _ hbytes
  rw [encodeBody] at *
  rw [decodeBody, hb64]
  have hall : (charsToBytes (jsonDumpsBody caller callee uuid)).all
      (fun b => decide (b < 128)) = true := by
    rw [List.all_eq_true]
    intro b hb
    simp only [charsToBytes, List.mem_map] at hb
    rcases hb with ⟨x, hx, rfl⟩
    simpa using hascii x hx
  have hmap : (charsToBytes (jsonDumpsBody caller callee uuid)).map Char.ofNat =
      jsonDumpsBody caller callee uuid := by
    have hco : Char.ofNat ∘ Char.toNat = id := funext Char.ofNat_toNat
    simp [charsToBytes, List.map_map, hco]
  simp [bytesToChars, hall, hmap, parseBody_jsonDumpsBody]

/-! ## Claim C1: finalization idempotence -/

/-- C1, counterexample: the disconnect path is not idempotent-guarded.
`on_client_disconnected` calls `call_tracker.save()` unconditionally, so two
disconnect signals for the same session persist two CallRecords, not one. -/
theorem C1_counterexample :
    (runEvents goodEnv (initState "+15551234567" 0 [])
        [BotEvent.clientConnected, BotEvent.clientDisconnected 5,
         BotEvent.clientDisconnected 6]).rows.length = 2 ∧ (2 : ℕ) ≠ 1 := by
  constructor
  · decide
  · decide

/-- C1, amended: every invocation of the disconnect path triggers persistence.
With a configured, healthy gateway, a session whose event stream contains k
`on_client_disconnected` deliveries persists exactly k CallRecords: there is
no idempotence guard, so duplicate disconnect signals produce duplicate rows. -/
theorem C1_every_disconnect_persists (e : DbEnv) (st : BotState) (evs : List BotEvent)
    (h1 : urlTruthy e.postgres_url = true) (h2 : e.connect = ConnAttempt.success)
    (h3 : e.query = QueryAttempt.success) :
    (runEvents e st evs).rows.length = st.rows.length + countDisconnects evs := by
  induction evs generalizing st with
  | nil => simp [runEvents, countDisconnects]
  | cons ev evs ih =>
      rw [runEvents_cons, ih]
      cases ev with
      | clientConnected => simp [stepEvent, countDisconnects, isDisconnect]
      | clientDisconnected now =>
          rw [stepEvent_disconnect_good e st now h1 h2 h3]
          simp [countDisconnects, isDisconnect]
          omega
      | sttTranscript t =>
          match t with
          | none => simp [stepEvent, countDisconnects, isDisconnect]
          | some s =>
              by_cases hs : s = ""
              · simp [stepEvent, countDisconnects, isDisconnect, hs]
              · by_cases hp : pyStrip s = ""
                · simp [stepEvent, countDisconnects, isDisconnect, hs, hp]
                · simp [stepEvent, countDisconnects, isDisconnect, hs, hp,
                    CallTracker.add_user_message]
      | toolCall n =>
          simp [stepEvent, countDisconnects, isDisconnect, CallTracker.set_intent]
      | assistantReply s => simp [stepEvent, countDisconnects, isDisconnect]

/-- C1 witness: three deliveries of the disconnect signal persist three rows. -/
theorem C1_witness :
    (runEvents goodEnv (initState "+15551234567" 0 [])
        [BotEvent.clientDisconnected 5, BotEvent.clientDisconnected 6,
         BotEvent.clientDisconnected 7]).rows.length = 0 + 3 :=
  C1_every_disconnect_persists goodEnv (initState "+15551234567" 0 [])
    [BotEvent.clientDisconnected 5, BotEvent.clientDisconnected 6,
     BotEvent.clientDisconnected 7] (by decide) rfl rfl

/-! ## Claim C2: transcript interleaving -/

/-- C2, counterexample: the rendered transcript does not contain one line per
assistant message. An assistant reply is spoken to the caller, but `run_bot`
registers no handler on the tts path and `add_assistant_message` has no call
site, so after one assistant reply the transcript has zero lines, not one. -/
theorem C2_counterexample :
    (runEvents goodEnv (initState "+15551234567" 0 [])
        [BotEvent.assistantReply
          "Hello, thank you for calling Acme Corp. How can I help you today?"]
      ).tracker.transcript_parts.length = 0 ∧ (0 : ℕ) ≠ 1 := by
  constructor
  · decide
  · decide

/-- C2, amended: the rendered transcript contains one `Caller:` line per
finalized user utterance that is non-empty after stripping, in the relative
order the utterances were finalized; assistant replies contribute no line at
all, because `add_assistant_message` is never invoked by the wiring. -/
theorem C2_user_lines_in_order (e : DbEnv) (st : BotState) (evs : List BotEvent) :
    (runEvents e st evs).tracker.transcript_parts =
      st.tracker.transcript_parts ++ evs.filterMap userLine ∧
    ∀ s : String, userLine (BotEvent.assistantReply s) = none :=
  ⟨runEvents_transcript_parts e st evs, fun _ => rfl⟩

/-! ## Claim C3: persistence failures -/

/-- C3, counterexample: a persistence failure is not always swallowed. In
`log_call`, `conn = get_connection()` runs before the try block, so when
`POSTGRES_URL` is set but `psycopg2.connect` fails, the exception propagates
out of the save path uncaught. -/
theorem C3_counterexample :
    log_call
        { postgres_url := some "postgresql://db",
          connect := ConnAttempt.failure "connection refused",
          query := QueryAttempt.success }
        [] "+15551234567" "" "unknown" 0 =
      Except.error "connection refused" := rfl

/-- C3, amended: when no gateway is configured (`POSTGRES_URL` unset or empty)
or the connection is established, `log_call` returns normally whatever the
query outcome: an unset URL degrades to a logged warning and skip, and a
failure inside the INSERT/commit phase is logged and swallowed. Only a
connection-establishment failure propagates. -/
theorem C3_swallowed_after_connect (e : DbEnv) (rows : List Row)
    (caller tr intent : String) (dur : ℤ)
    (h : urlTruthy e.postgres_url = false ∨ e.connect = ConnAttempt.success) :
    ∃ out, log_call e rows caller tr intent dur = Except.ok out := by
  rcases h with h | h
  · exact ⟨(rows, LogOutcome.skipped), by simp [log_call, get_connection, h]⟩
  · by_cases hu : urlTruthy e.postgres_url = false
    · exact ⟨(rows, LogOutcome.skipped), by simp [log_call, get_connection, hu]⟩
    · rcases hq : e.query with _ | m
      · exact ⟨(rows ++ [⟨caller, tr, intent, dur⟩], LogOutcome.logged), by
          simp [log_call, get_connection, hu, h, hq]⟩
      · exact ⟨(rows, LogOutcome.swallowed m), by
          simp [log_call, get_connection, hu, h, hq]⟩

/-- C3 witness: with the URL unset the call is skipped and returns normally,
and with a connected but failing INSERT the error is swallowed. -/
theorem C3_witness :
    ∃ out, log_call
        { postgres_url := none, connect := ConnAttempt.success,
          query := QueryAttempt.success } [] "+15551234567" "" "unknown" 0 =
      Except.ok out :=
  C3_swallowed_after_connect
    { postgres_url := none, connect := ConnAttempt.success,
      query := QueryAttempt.success } [] "+15551234567" "" "unknown" 0
    (Or.inl rfl)

/-! ## Claim C4: empty-call finalize -/

/-- C4: a session that disconnects with zero recorded utterances still yields
a valid record: a fresh `CallTracker` has empty transcript and intent
`"unknown"`, its duration at any later time is a whole number of seconds ≥ 0,
and saving it persists exactly the row (caller, "", "unknown", duration). -/
theorem C4_empty_call_finalize (caller : String) (t0 now : ℚ) (h : t0 ≤ now) :
    (CallTracker.init caller t0).transcript = "" ∧
    (CallTracker.init caller t0).detected_intent = "unknown" ∧
    0 ≤ (CallTracker.init caller t0).duration now ∧
    (CallTracker.init caller t0).save goodEnv [] now =
      Except.ok ([⟨caller, "", "unknown", (CallTracker.init caller t0).duration now⟩],
        LogOutcome.logged) := by
  refine ⟨rfl, rfl, ?_, ?_⟩
  · show 0 ≤ pyInt (now - t0)
    have hq : 0 ≤ now - t0 := by linarith
    simp only [pyInt, if_pos hq]
    exact Int.floor_nonneg.mpr hq
  · exact log_call_good goodEnv [] caller "" "unknown" _ (by decide) rfl rfl

/-- C4 witness: a call that starts at time 0 and drops at time 7/2 with no
utterances produces the record ("+15551234567", "", "unknown", 3). -/
theorem C4_witness :
    (CallTracker.init "+15551234567" 0).transcript = "" ∧
    (CallTracker.init "+15551234567" 0).detected_intent = "unknown" ∧
    0 ≤ (CallTracker.init "+15551234567" 0).duration (7 / 2) ∧
    (CallTracker.init "+15551234567" 0).save goodEnv [] (7 / 2) =
      Except.ok ([⟨"+15551234567", "", "unknown",
          (CallTracker.init "+15551234567" 0).duration (7 / 2)⟩],
        LogOutcome.logged) :=
  C4_empty_call_finalize "+15551234567" 0 (7 / 2) (by norm_num)

/-! ## Claim C5: last-write-wins intent -/

/-- C5: the intent field is last-write-wins with no history. For every event
sequence whose last intent-setting handler leaves label `lbl`, the tracker
finishes with `detected_intent = lbl`, and the CallRecord persisted by a
following disconnect carries exactly `lbl`. -/
theorem C5_last_write_wins (e : DbEnv) (st : BotState) (evs : List BotEvent)
    (lbl : String) (now : ℚ)
    (h1 : urlTruthy e.postgres_url = true) (h2 : e.connect = ConnAttempt.success)
    (h3 : e.query = QueryAttempt.success)
    (hlast : lastSetIntent evs = some lbl) :
    (runEvents e st evs).tracker.detected_intent = lbl ∧
    ∃ r : Row,
      (runEvents e st (evs ++ [BotEvent.clientDisconnected now])).rows.getLast? =
        some r ∧ r.detected_intent = lbl := by
  have hintent : (runEvents e st evs).tracker.detected_intent = lbl := by
    rw [runEvents_intent, hlast]; rfl
  refine ⟨hintent, ?_⟩
  rw [runEvents_append]
  set st1 := runEvents e st evs with hst1
  refine ⟨⟨st1.tracker.caller_number, st1.tracker.transcript,
    st1.tracker.detected_intent, st1.tracker.duration now⟩, ?_, hintent⟩
  show (runEvents e (stepEvent e st1 (BotEvent.clientDisconnected now)) []).rows.getLast?
      = _
  rw [stepEvent_disconnect_good e st1 now h1 h2 h3]
  simp [runEvents]

/-- C5 witness: the spec scenario. The caller asks for hours, the
`get_business_hours` handler runs, the caller says goodbye, the call
disconnects: the persisted record's intent is "hours_inquiry". -/
theorem C5_witness :
    (runEvents goodEnv (initState "+15551234567" 0 [])
        [BotEvent.sttTranscript (some "What are your hours?"),
         BotEvent.toolCall ToolName.get_business_hours,
         BotEvent.sttTranscript (some "thanks, bye")]).tracker.detected_intent =
      "hours_inquiry" ∧
    ∃ r : Row,
      (runEvents goodEnv (initState "+15551234567" 0 [])
          ([BotEvent.sttTranscript (some "What are your hours?"),
            BotEvent.toolCall ToolName.get_business_hours,
            BotEvent.sttTranscript (some "thanks, bye")] ++
            [BotEvent.clientDisconnected 42])).rows.getLast? = some r ∧
      r.detected_intent = "hours_inquiry" :=
  C5_last_write_wins goodEnv (initState "+15551234567" 0 [])
    [BotEvent.sttTranscript (some "What are your hours?"),
     BotEvent.toolCall ToolName.get_business_hours,
     BotEvent.sttTranscript (some "thanks, bye")]
    "hours_inquiry" 42 (by decide) rfl rfl (by decide)

/-! ## Claim C6: conversation-context invariant -/

/-- C6: every reachable context keeps the system instruction as its first
entry; operation sequences only ever extend the context (so nothing is
reordered or deleted); and each single operation — the on-connect greeting
included — appends exactly one message after the existing entries. -/
theorem C6_context_invariant (ops more : List ContextOp) :
    (applyOps initialContext ops).head? = some ⟨"system", SYSTEM_PROMPT⟩ ∧
    (∃ suffix, applyOps initialContext (ops ++ more) =
      applyOps initialContext ops ++ suffix) ∧
    (∀ ctx : List Message, ∀ op : ContextOp, ∃ m : Message,
      applyOp ctx op = ctx ++ [m]) := by
  refine ⟨?_, ?_, ?_⟩
  · rcases applyOps_extends initialContext ops with ⟨s, hs⟩
    rw [hs]; rfl
  · have happ : applyOps initialContext (ops ++ more) =
        applyOps (applyOps initialContext ops) more := List.foldl_append ..
    rcases applyOps_extends (applyOps initialContext ops) more with ⟨s, hs⟩
    exact ⟨s, by rw [happ, hs]⟩
  · intro ctx op
    cases op <;> exact ⟨_, rfl⟩

/-! ## Claim C9: empty and whitespace-only recognized speech -/

/-- C9: a recognized-speech event with no text or with text that is empty or
whitespace-only leaves the state (hence the transcript) unchanged; when the
stripped text is non-empty, exactly the line `"Caller: " ++ stripped` is
appended; and the rendered transcript joins the lines with single newlines. -/
theorem C9_transcript_event (e : DbEnv) (st : BotState) :
    (stepEvent e st (BotEvent.sttTranscript none) = st) ∧
    (∀ s : String, pyStrip s = "" →
      stepEvent e st (BotEvent.sttTranscript (some s)) = st) ∧
    (∀ s : String, pyStrip s ≠ "" →
      (stepEvent e st (BotEvent.sttTranscript (some s))).tracker.transcript_parts =
        st.tracker.transcript_parts ++ ["Caller: " ++ pyStrip s]) ∧
    (∀ t : CallTracker, t.transcript = String.intercalate "\n" t.transcript_parts) := by
  refine ⟨rfl, ?_, ?_, fun _ => rfl⟩
  · intro s h
    by_cases hs : s = "" <;> simp [stepEvent, hs, h]
  · intro s h
    have hs : s ≠ "" := by
      intro hs; exact h (by rw [hs]; rfl)
    simp [stepEvent, hs, h, CallTracker.add_user_message]

theorem runCoord_cons (c : Coordinator) (ev : CoordEvent) (evs : List CoordEvent) :
    runCoord c (ev :: evs) = runCoord (coordStep c ev) evs := rfl

/-- One coordinator step either delivers nothing — its buffer holding only
old frames and, for a `synth` step, the newly synthesized frame — or hands the
head of the buffer to the transport. -/
theorem coordStep_effect (c : Coordinator) (ev : CoordEvent) :
    ((coordStep c ev).delivered = c.delivered ∧
      ∀ f ∈ (coordStep c ev).buffered, f ∈ c.buffered ∨ ev = CoordEvent.synth f) ∨
    (∃ f0, c.buffered = f0 :: (coordStep c ev).buffered ∧
      (coordStep c ev).delivered = c.delivered ++ [f0]) := by
  cases ev with
  | userUtterance u => exact Or.inl ⟨rfl, by simp [coordStep]⟩
  | synth fr =>
      rcases hc : c.state with _ | u | _ | _
      · exact Or.inl ⟨by simp [coordStep, hc], fun f hf => Or.inl (by
          simpa [coordStep, hc] using hf)⟩
      · exact Or.inl ⟨by simp [coordStep, hc], fun f hf => Or.inl (by
          simpa [coordStep, hc] using hf)⟩
      · exact Or.inl ⟨by simp [coordStep, hc], fun f hf => Or.inl (by
          simpa [coordStep, hc] using hf)⟩
      · refine Or.inl ⟨by simp [coordStep, hc], fun f hf => ?_⟩
        have hf1 : f ∈ c.buffered ++ [fr] := by simpa [coordStep, hc] using hf
        rcases List.mem_append.mp hf1 with h | h
        · exact Or.inl h
        · simp at h
          exact Or.inr (by rw [h])
  | deliver =>
      rcases hb : c.buffered with _ | ⟨f0, rest⟩
      · exact Or.inl ⟨by simp [coordStep, hb], by simp [coordStep, hb]⟩
      · exact Or.inr ⟨f0, by simp [coordStep, hb]⟩
  | replyComplete =>
      refine Or.inl ⟨?_, ?_⟩ <;> cases hc : c.state <;> simp [coordStep, hc]
  | toolsRequested =>
      refine Or.inl ⟨?_, ?_⟩ <;> cases hc : c.state <;> simp [coordStep, hc]
  | playbackComplete =>
      refine Or.inl ⟨?_, ?_⟩ <;> cases hc : c.state <;> simp [coordStep, hc]

/-- Audio-provenance invariant: every frame a run delivers beyond the frames
already delivered came either from the starting buffer or from a `synth`
event of the run. -/
theorem runCoord_delivered (c : Coordinator) (evs : List CoordEvent) :
    ∃ post, (runCoord c evs).delivered = c.delivered ++ post ∧
      ∀ f ∈ post, f ∈ c.buffered ∨ CoordEvent.synth f ∈ evs := by
  induction evs generalizing c with
  | nil => exact ⟨[], by simp [runCoord], by simp⟩
  | cons ev evs ih =>
      rw [runCoord_cons]
      rcases ih (coordStep c ev) with ⟨post, hpost, hmem⟩
      rcases coordStep_effect c ev with ⟨hd, hb⟩ | ⟨f0, hb, hd⟩
      · refine ⟨post, by rw [hpost, hd], fun f hf => ?_⟩
        rcases hmem f hf with h | h
        · rcases hb f h with h1 | h1
          · exact Or.inl h1
          · exact Or.inr (by rw [h1]; exact List.mem_cons_self ..)
        · exact Or.inr (List.mem_cons_of_mem _ h)
      · refine ⟨f0 :: post, by rw [hpost, hd]; simp, fun f hf => ?_⟩
        rcases List.mem_cons.mp hf with h | h
        · exact Or.inl (by rw [hb, h]; exact List.mem_cons_self ..)
        · rcases hmem f h with h1 | h1
          · exact Or.inl (by rw [hb]; exact List.mem_cons_of_mem _ h1)
          · exact Or.inr (List.mem_cons_of_mem _ h1)

/-- C7: a finalized user utterance arriving while the coordinator is in
`Generating`, `AwaitingTool` or `Speaking` moves it directly to `Generating`
with that utterance, discards the undelivered synthesized audio, keeps what
was already delivered, and every frame delivered after the interruption point
stems from a synthesis event after it — no previously buffered audio reaches
the transport. -/
theorem C7_barge_in (c : Coordinator) (u : String)
    (h : c.state.interruptible = true) :
    (coordStep c (CoordEvent.userUtterance u)).state = CoordState.generating u ∧
    (coordStep c (CoordEvent.userUtterance u)).buffered = [] ∧
    (coordStep c (CoordEvent.userUtterance u)).delivered = c.delivered ∧
    ∀ evs : List CoordEvent, ∃ post,
      (runCoord (coordStep c (CoordEvent.userUtterance u)) evs).delivered =
        c.delivered ++ post ∧ ∀ f ∈ post, CoordEvent.synth f ∈ evs := by
  refine ⟨rfl, rfl, rfl, fun evs => ?_⟩
  rcases runCoord_delivered (coordStep c (CoordEvent.userUtterance u)) evs with
    ⟨post, hpost, hmem⟩
  refine ⟨post, hpost, fun f hf => ?_⟩
  rcases hmem f hf with h1 | h1
  · exact absurd h1 (by simp [coordStep])
  · exact h1

/-- C7 witness: barge-in while speaking with two frames still buffered — the
state becomes `Generating` with the new utterance, the buffer is dropped, and
after one further deliver attempt nothing beyond the old delivered audio has
reached the transport. -/
theorem C7_witness :
    (coordStep ⟨CoordState.speaking, ["frame1", "frame2"], ["frame0"]⟩
        (CoordEvent.userUtterance "wait, one more question")).state =
      CoordState.generating "wait, one more question" ∧
    (coordStep ⟨CoordState.speaking, ["frame1", "frame2"], ["frame0"]⟩
        (CoordEvent.userUtterance "wait, one more question")).buffered = [] ∧
    ∃ post,
      (runCoord (coordStep ⟨CoordState.speaking, ["frame1", "frame2"], ["frame0"]⟩
          (CoordEvent.userUtterance "wait, one more question"))
        [CoordEvent.deliver]).delivered = ["frame0"] ++ post ∧
      ∀ f ∈ post, CoordEvent.synth f ∈ [CoordEvent.deliver] := by
  have h := C7_barge_in ⟨CoordState.speaking, ["frame1", "frame2"], ["frame0"]⟩
    "wait, one more question" rfl
  exact ⟨h.1, h.2.1, h.2.2.2 [CoordEvent.deliver]⟩

/-- C8: whatever order the handlers completed in, once every requested
invocation has a result the context receives the result messages in request
order; and while any invocation of the turn is outstanding the model is not
re-invoked. -/
theorem C8_request_order (requests : List ToolRequest)
    (completed : List (String × String)) (handlerResult : String → String) :
    ((∀ r ∈ requests, completed.lookup r.id = some (handlerResult r.id)) →
      collectToolResults requests completed =
        some (requests.map (fun r => ⟨r.id, handlerResult r.id⟩))) ∧
    ((∃ r ∈ requests, completed.lookup r.id = none) →
      collectToolResults requests completed = none) := by
  induction requests with
  | nil =>
      refine ⟨fun _ => rfl, fun h => ?_⟩
      rcases h with ⟨r, hr, _⟩
      exact absurd hr (List.not_mem_nil r)
  | cons r rs ih =>
      constructor
      · intro h
        have hr : completed.lookup r.id = some (handlerResult r.id) :=
          h r (List.mem_cons_self ..)
        have hrest := ih.1 (fun x hx => h x (List.mem_cons_of_mem _ hx))
        simp [collectToolResults, hr, hrest]
      · intro h
        rcases h with ⟨r0, hr0, hnone⟩
        rcases List.mem_cons.mp hr0 with h0 | h0
        · rw [h0] at hnone
          simp [collectToolResults, hnone]
        · have hrest := ih.2 ⟨r0, h0, hnone⟩
          rcases hl : completed.lookup r.id with _ | res <;>
            simp [collectToolResults, hl, hrest]

/-- C8 witness: the model requests T1 then T2; T2's handler completes first
(completion order [T2, T1]); the collected results still list T1's message
before T2's. -/
theorem C8_witness :
    collectToolResults
        [⟨"call_1", "get_business_hours", ""⟩, ⟨"call_2", "get_location", ""⟩]
        [("call_2", "result two"), ("call_1", "result one")] =
      some [⟨"call_1", "result one"⟩, ⟨"call_2", "result two"⟩] := by
  have h := (C8_request_order
      [⟨"call_1", "get_business_hours", ""⟩, ⟨"call_2", "get_location", ""⟩]
      [("call_2", "result two"), ("call_1", "result one")]
      (fun i => if i = "call_1" then "result one" else "result two")).1 (by decide)
  simpa using h

/-- C9 witness: a whitespace-only utterance changes nothing; the utterance
`"  hello there  "` appends exactly `"Caller: hello there"`. -/
theorem C9_witness :
    stepEvent goodEnv (initState "+15551234567" 0 [])
        (BotEvent.sttTranscript (some " \t\n ")) = initState "+15551234567" 0 [] ∧
    (stepEvent goodEnv (initState "+15551234567" 0 [])
        (BotEvent.sttTranscript (some "  hello there  "))).tracker.transcript_parts =
      (initState "+15551234567" 0 []).tracker.transcript_parts ++
        ["Caller: hello there"] := by
  constructor
  · exact (C9_transcript_event goodEnv (initState "+15551234567" 0 [])).2.1
      " \t\n " (by decide)
  · have h := (C9_transcript_event goodEnv (initState "+15551234567" 0 [])).2.2.1
      "  hello there  " (by decide)
    simpa using h

/-! ## Claim C10: call-metadata round trip between /answer and /ws -/

/-- C10: for every caller, callee and call UUID received by `/answer` (each
defaulting to "unknown" when the form parameter is absent), base64-decoding
and JSON-parsing the `body` query parameter `/answer` embeds in the WebSocket
URL yields exactly the object with fields `from`, `to` and `call_uuid` equal
to those values, so the bot's `caller_number` equals the `From` value `/answer`
received (or "unknown" when absent). -/
theorem C10_metadata_roundtrip (fromParam toParam uuidParam : Option String) :
    decodeBody (encodeBody (fromParam.getD "unknown") (toParam.getD "unknown")
        (uuidParam.getD "unknown")) =
      some (fromParam.getD "unknown", toParam.getD "unknown",
        uuidParam.getD "unknown") ∧
    botCallerNumber (decodeBody (encodeBody (fromParam.getD "unknown")
        (toParam.getD "unknown") (uuidParam.getD "unknown"))) =
      fromParam.getD "unknown" := by
  have h := decodeBody_encodeBody (fromParam.getD "unknown")
    (toParam.getD "unknown") (uuidParam.getD "unknown")
  exact ⟨h, by rw [h]; rfl⟩

/-- C10 witness: a concrete call — the encoded body round-trips and the bot
sees the caller number `/answer` received. -/
theorem C10_witness :
    decodeBody (encodeBody "+14155551212" "+18005550100" "f3a1b2c4-0000-1111") =
      some ("+14155551212", "+18005550100", "f3a1b2c4-0000-1111") ∧
    botCallerNumber (decodeBody
        (encodeBody "+14155551212" "+18005550100" "f3a1b2c4-0000-1111")) =
      "+14155551212" :=
  C10_metadata_roundtrip (some "+14155551212") (some "+18005550100")
    (some "f3a1b2c4-0000-1111")

end Receptionist
